import Mathlib

/-!
Shallow embedding of `src/flask_app.py` (NHTSA vehicle document viewer).

The program is a Flask app with four moving parts:
* `fetch_nhtsa_data` — paginated CSV fetch with an in-memory per-year cache;
* `get_cached_data` / `cache_data` — the 30-minute TTL cache;
* `clean_filename` — filename sanitisation via `re.sub(r'[^a-zA-Z0-9\s-]', '', _)`
  followed by `.replace(' ', '_')`;
* three JSON endpoints (`get_manufacturers`, `get_versions`, `get_pdf`) over a
  pandas DataFrame of rows with columns `manufacturername`, `name`,
  `letterdate`, `url`.

Rows are embedded as a fixed-field structure; a DataFrame additionally carries
its column-name list so that pandas `KeyError` on a missing column can be
modelled (handlers return `Except String Response`, `.error` standing for an
uncaught Python exception).  Network effects are parameters: the page fetcher
is a function `Nat → PageResult`, the PDF fetch a function
`String → PdfResult`, and `pd.to_datetime(_, errors='coerce')` a parameter
`parse : String → Option Nat` returning a comparable date key (`none` = NaT).
Times are integers in seconds.
-/

/-- One CSV record (one row of the pandas DataFrame). -/
structure Row where
  manufacturername : String
  name : String
  letterdate : String
  url : String
deriving DecidableEq

/-- Outcome of `requests.get` + `pd.read_csv` for one page:
`reqError` = `requests.get` raised; `resp status none` = the body failed to
parse (`pd.read_csv` raised); `resp status (some rows)` = parsed page. -/
inductive PageResult where
  | reqError : PageResult
  | resp (status : Nat) (parsed : Option (List Row)) : PageResult

/-- The page cap: `max_pages = 10  # Limit to prevent infinite loops`. -/
def max_pages : Nat := 10

/-- The `while page <= max_pages` pagination loop of `fetch_nhtsa_data`
(lines 61-81).  `fuel` counts the iterations the `while` condition still
allows (`fuel = max_pages + 1 - page`).  Returns the accumulated rows
(`all_data`) together with the list of page numbers actually requested. -/
def fetch_pages (f : Nat → PageResult) : Nat → Nat → List Row × List Nat
  | 0, _ => ([], [])
  | fuel + 1, page =>
    match f page with
    | .reqError => ([], [page])
    | .resp status parsed =>
      if status ≠ 200 then ([], [page])
      else
        match parsed with
        | none => ([], [page])
        | some rows =>
          if rows.isEmpty ∨ rows.length < 10 then ([], [page])
          else
            let rest := fetch_pages f fuel (page + 1)
            (rows ++ rest.1, page :: rest.2)

/-- The whole pagination phase: pages are requested starting at 1. -/
def fetch_loop (f : Nat → PageResult) : List Row × List Nat :=
  fetch_pages f max_pages 1

/-- Holds (`true`) iff the loop body `break`s when it processes page `p`
(any of: request exception, non-200 status, CSV parse failure, short page). -/
def break_page (f : Nat → PageResult) (p : Nat) : Bool :=
  match f p with
  | .reqError => true
  | .resp status parsed =>
    status != 200 ||
      match parsed with
      | none => true
      | some rows => rows.isEmpty || decide (rows.length < 10)

/-- The three stop conditions named by the specification: a short (or empty)
page, the page counter past the fixed maximum, or a non-200 upstream status. -/
def claim_stop (f : Nat → PageResult) (p : Nat) : Bool :=
  decide (max_pages < p) ||
    match f p with
    | .reqError => false
    | .resp status parsed =>
      status != 200 ||
        match parsed with
        | none => false
        | some rows => rows.isEmpty || decide (rows.length < 10)

/-- The rows page `p` contributes to `all_data`: its parsed rows when the
page was served with status 200 and holds at least 10 rows, nothing
otherwise (short pages `break` before the `pd.concat`). -/
def page_contrib (f : Nat → PageResult) (p : Nat) : List Row :=
  match f p with
  | .reqError => []
  | .resp status parsed =>
    if status ≠ 200 then []
    else
      match parsed with
      | none => []
      | some rows => if rows.isEmpty ∨ rows.length < 10 then [] else rows

/-- The TTL `CACHE_DURATION = timedelta(minutes=30)`, in seconds. -/
def CACHE_DURATION : Int := 30 * 60

/-- The `memory_cache`: year ↦ (fetch time, data), as an association list. -/
abbrev Cache := List (Nat × Int × List Row)

/-- Function `get_cached_data(year)` (lines 30-41): returns the cached table while
`datetime.now() - cached_time < CACHE_DURATION`, otherwise deletes the entry
and returns `None`.  Also returns the possibly-updated cache. -/
def get_cached_data (now : Int) (year : Nat) (c : Cache) :
    Option (List Row) × Cache :=
  match c.lookup year with
  | some (cached_time, data) =>
    if now - cached_time < CACHE_DURATION then (some data, c)
    else (none, c.filter (fun e => e.1 != year))
  | none => (none, c)

/-- Function `cache_data(year, data)` (lines 43-46): `memory_cache[year] = (now, data)`. -/
def cache_data (now : Int) (year : Nat) (data : List Row) (c : Cache) : Cache :=
  (year, now, data) :: c.filter (fun e => e.1 != year)

/-- Function `fetch_nhtsa_data(year)` (lines 48-89): cache hit short-circuits; on a
miss the pagination loop runs and the result is cached only when non-empty. -/
def fetch_nhtsa_data (f : Nat → PageResult) (now : Int) (year : Nat)
    (c : Cache) : List Row × Cache :=
  match get_cached_data now year c with
  | (some cached, c1) => (cached, c1)
  | (none, c1) =>
    let all_data := (fetch_loop f).1
    if all_data.isEmpty then (all_data, c1)
    else (all_data, cache_data now year all_data c1)

/-- The character class kept by `re.sub(r'[^a-zA-Z0-9\s-]', '', text)`:
ASCII alphanumerics, Python `\s` whitespace, and the hyphen. -/
def keep_char (c : Char) : Bool :=
  c.isAlphanum || c == ' ' || c == '\t' || c == '\n' || c == '\r' ||
    c == '\x0b' || c == '\x0c' || c == '-'

/-- Function `clean_filename(text)` (lines 24-28). -/
def clean_filename (text : String) : String :=
  let cleaned := String.mk (text.toList.filter keep_char)
  String.mk (cleaned.toList.map (fun c => if c == ' ' then '_' else c))

/-! ### Pagination (claims C1, C9) -/

theorem fetch_pages_reqs_spec (f : Nat → PageResult) :
    ∀ fuel page q, q ∈ (fetch_pages f fuel page).2 →
      page ≤ q ∧ q < page + fuel ∧
        ∀ r, page ≤ r → r < q → break_page f r = false := by
  intro fuel
  induction fuel with
  | zero =>
    intro page q hq
    simp [fetch_pages] at hq
  | succ n ih =>
    intro page q hq
    cases hf : f page with
    | reqError =>
      simp only [fetch_pages, hf, List.mem_singleton] at hq
      subst hq
      exact ⟨le_refl _, by omega, fun r h1 h2 => absurd h2 (by omega)⟩
    | resp status parsed =>
      cases parsed with
      | none =>
        simp only [fetch_pages, hf] at hq
        split at hq <;> simp only [List.mem_singleton] at hq <;> subst hq <;>
          exact ⟨le_refl _, by omega, fun r h1 h2 => absurd h2 (by omega)⟩
      | some rows =>
        simp only [fetch_pages, hf] at hq
        by_cases hs : status ≠ 200
        · rw [if_pos hs] at hq
          simp only [List.mem_singleton] at hq
          subst hq
          exact ⟨le_refl _, by omega, fun r h1 h2 => absurd h2 (by omega)⟩
        · rw [if_neg hs] at hq
          by_cases hshort : rows.isEmpty = true ∨ rows.length < 10
          · rw [if_pos hshort] at hq
            simp only [List.mem_singleton] at hq
            subst hq
            exact ⟨le_refl _, by omega, fun r h1 h2 => absurd h2 (by omega)⟩
          · rw [if_neg hshort] at hq
            simp only [List.mem_cons] at hq
            rcases hq with rfl | hq
            · exact ⟨le_refl _, by omega, fun r h1 h2 => absurd h2 (by omega)⟩
            · obtain ⟨h1, h2, h3⟩ := ih (page + 1) q hq
              refine ⟨by omega, by omega, ?_⟩
              intro r hr1 hr2
              rcases Nat.eq_or_lt_of_le hr1 with rfl | hlt
              · push_neg at hs hshort
                simp [break_page, hf, hs, hshort.1, hshort.2]
              · exact h3 r (by omega) hr2

theorem fetch_pages_complete (f : Nat → PageResult) :
    ∀ fuel page p, page ≤ p → p < page + fuel →
      (∀ r, page ≤ r → r < p → break_page f r = false) →
      p ∈ (fetch_pages f fuel page).2 := by
  intro fuel
  induction fuel with
  | zero => intro page p h1 h2 _; omega
  | succ n ih =>
    intro page p h1 h2 hgood
    rcases Nat.eq_or_lt_of_le h1 with rfl | hlt
    · cases hf : f page with
      | reqError => simp [fetch_pages, hf]
      | resp status parsed =>
        cases parsed with
        | none =>
          simp only [fetch_pages, hf]
          split <;> simp
        | some rows =>
          simp only [fetch_pages, hf]
          by_cases hs : status ≠ 200
          · rw [if_pos hs]; simp
          · rw [if_neg hs]
            by_cases hshort : rows.isEmpty = true ∨ rows.length < 10
            · rw [if_pos hshort]; simp
            · rw [if_neg hshort]; simp
    · have hb := hgood page (le_refl _) hlt
      cases hf : f page with
      | reqError => simp [break_page, hf] at hb
      | resp status parsed =>
        cases parsed with
        | none => simp [break_page, hf] at hb
        | some rows =>
          simp only [break_page, hf, Bool.or_eq_false_iff,
            bne_eq_false_iff_eq, decide_eq_false_iff_not] at hb
          obtain ⟨hs, he, hl⟩ := hb
          have hrest : p ∈ (fetch_pages f n (page + 1)).2 :=
            ih (page + 1) p (by omega) (by omega)
              (fun r hr1 hr2 => hgood r (by omega) hr2)
          simp only [fetch_pages, hf]
          rw [if_neg (by omega : ¬ status ≠ 200),
            if_neg (by simp [he, hl] : ¬ (rows.isEmpty = true ∨ rows.length < 10))]
          exact List.mem_cons_of_mem _ hrest

theorem claim_stop_break (f : Nat → PageResult) (p : Nat)
    (h : claim_stop f p = true) :
    max_pages < p ∨ break_page f p = true := by
  simp only [claim_stop, Bool.or_eq_true, decide_eq_true_eq] at h
  rcases h with h | h
  · exact Or.inl h
  · right
    cases hf : f p with
    | reqError => rw [hf] at h; simp at h
    | resp status parsed =>
      rw [hf] at h
      simp only [break_page, hf]
      cases parsed with
      | none => simp
      | some rows => simpa using h

/-- C1: for every year, the pagination loop stops at the first page where one
of the stop conditions holds — a short or empty page, the page counter past
the fixed maximum of 10, or a non-200 upstream status — and no further pages
are requested after any such condition; conversely, every page up to the
first break is requested. -/
theorem pagination_stop_conditions (f : Nat → PageResult) :
    (∀ p, 1 ≤ p → claim_stop f p = true → ∀ q ∈ (fetch_loop f).2, q ≤ p) ∧
    (∀ p, 1 ≤ p → p ≤ max_pages →
      (∀ r, 1 ≤ r → r < p → break_page f r = false) →
      p ∈ (fetch_loop f).2) := by
  have hm : max_pages = 10 := rfl
  constructor
  · intro p hp hstop q hq
    obtain ⟨h1, h2, h3⟩ := fetch_pages_reqs_spec f max_pages 1 q hq
    rcases claim_stop_break f p hstop with hbig | hbr
    · omega
    · by_contra hqp
      push_neg at hqp
      exact absurd hbr (by simp [h3 p hp hqp])
  · intro p hp hmp hgood
    exact fetch_pages_complete f max_pages 1 p hp (by omega) hgood

/-- A fixed upstream that answers every page with HTTP 404. -/
def f0 : Nat → PageResult := fun _ => .resp 404 (some [])

/-- Witness for C1 at the concrete upstream `f0`, page 1. -/
theorem pagination_stop_conditions_holds :
    (∀ q ∈ (fetch_loop f0).2, q ≤ 1) ∧ 1 ∈ (fetch_loop f0).2 :=
  ⟨(pagination_stop_conditions f0).1 1 (by decide) (by decide),
    (pagination_stop_conditions f0).2 1 (by decide) (by decide)
      (fun r h1 h2 => absurd h2 (by omega))⟩

theorem fetch_pages_flatten (f : Nat → PageResult) :
    ∀ fuel page, (fetch_pages f fuel page).1 =
      ((fetch_pages f fuel page).2.map (page_contrib f)).flatten := by
  intro fuel
  induction fuel with
  | zero => intro page; simp [fetch_pages]
  | succ n ih =>
    intro page
    cases hf : f page with
    | reqError => simp [fetch_pages, hf, page_contrib]
    | resp status parsed =>
      cases parsed with
      | none =>
        simp only [fetch_pages, hf]
        split <;> simp [page_contrib, hf]
      | some rows =>
        simp only [fetch_pages, hf]
        by_cases hs : status ≠ 200
        · rw [if_pos hs]
          simp [page_contrib, hf, hs]
        · rw [if_neg hs]
          by_cases hshort : rows.isEmpty = true ∨ rows.length < 10
          · rw [if_pos hshort]
            simp only [List.isEmpty_iff] at hshort
            simp [page_contrib, hf, hs]
            intro h1 h2
            rcases hshort with h | h
            · exact absurd h h1
            · omega
          · rw [if_neg hshort]
            simp only [List.isEmpty_iff] at hshort
            simp [page_contrib, hf, hs, ih]
            rw [if_neg hshort]

/-- C9: the table returned by the pagination phase is exactly the
concatenation of the contributions of the requested pages, where a page
contributes its rows only when it was served with status 200 and holds at
least 10 rows; in particular the rows of the short page that terminates
pagination are dropped. -/
theorem fetch_drops_short_page (f : Nat → PageResult) :
    (fetch_loop f).1 = ((fetch_loop f).2.map (page_contrib f)).flatten :=
  fetch_pages_flatten f max_pages 1

/-! ### Cache (claims C2, C10) -/

theorem lookup_filter_ne (year : Nat) (c : Cache) :
    (c.filter (fun e => e.1 != year)).lookup year = none := by
  induction c with
  | nil => rfl
  | cons e c ih =>
    obtain ⟨k, v⟩ := e
    by_cases h : k = year
    · simp only [List.filter_cons, h]
      simp [ih]
    · simp only [List.filter_cons]
      rw [if_pos (by simpa using h)]
      simp only [List.lookup]
      rw [show (year == k) = false by simp [Ne.symm h]]
      exact ih

/-- C2: for a cached entry `(t, data)` under `year`, `get_cached_data`
returns the cached table exactly when the elapsed time is strictly below the
30-minute duration; at or past the boundary the entry is deleted, `None` is
returned, and `fetch_nhtsa_data` refetches from the pagination loop. -/
theorem cache_expiry_boundary (now : Int) (year : Nat) (c : Cache) (t : Int)
    (data : List Row) (h : c.lookup year = some (t, data)) :
    (now - t < CACHE_DURATION → get_cached_data now year c = (some data, c)) ∧
    (CACHE_DURATION ≤ now - t →
      (get_cached_data now year c).1 = none ∧
      (get_cached_data now year c).2.lookup year = none ∧
      ∀ f, (fetch_nhtsa_data f now year c).1 = (fetch_loop f).1) := by
  constructor
  · intro hfresh
    simp [get_cached_data, h, hfresh]
  · intro hstale
    have hnot : ¬ (now - t < CACHE_DURATION) := not_lt.mpr hstale
    refine ⟨by simp [get_cached_data, h, hnot], ?_, ?_⟩
    · simp [get_cached_data, h, hnot, lookup_filter_ne]
    · intro f
      have hg : get_cached_data now year c =
          (none, c.filter (fun e => e.1 != year)) := by
        simp [get_cached_data, h, hnot]
      simp only [fetch_nhtsa_data, hg]
      by_cases he : (fetch_loop f).1.isEmpty = true
      · rw [if_pos he]
      · rw [if_neg he]

/-- A concrete row used by witnesses. -/
def row0 : Row := ⟨"Mfr", "Doc", "1/1/2020", "u"⟩

/-- A one-entry cache used by witnesses. -/
def cache0 : Cache := [(2020, 0, [row0])]

/-- Witness for C2: the concrete cache `cache0` read at 10 seconds (fresh)
and its stale conclusions stated at the same instantiation. -/
theorem cache_expiry_boundary_holds :
    cache0.lookup 2020 = some (0, [row0]) ∧
    (((10 : Int) - 0 < CACHE_DURATION →
      get_cached_data 10 2020 cache0 = (some [row0], cache0)) ∧
    (CACHE_DURATION ≤ (10 : Int) - 0 →
      (get_cached_data 10 2020 cache0).1 = none ∧
      (get_cached_data 10 2020 cache0).2.lookup 2020 = none ∧
      ∀ f, (fetch_nhtsa_data f 10 2020 cache0).1 = (fetch_loop f).1)) :=
  ⟨by decide, cache_expiry_boundary 10 2020 cache0 0 [row0] (by decide)⟩

/-- The cache invariant of claim C10: no entry holds an empty table. -/
abbrev CacheInv (c : Cache) : Prop := ∀ e ∈ c, e.2.2 ≠ []

theorem cacheInv_filter (c : Cache) (p : Nat × Int × List Row → Bool)
    (h : CacheInv c) : CacheInv (c.filter p) :=
  fun e he => h e (List.mem_of_mem_filter he)

theorem cacheInv_get (now : Int) (year : Nat) (c : Cache) (h : CacheInv c) :
    CacheInv (get_cached_data now year c).2 := by
  unfold get_cached_data
  cases hl : c.lookup year with
  | none => simpa using h
  | some td =>
    obtain ⟨t, d⟩ := td
    dsimp only
    split
    · exact h
    · exact cacheInv_filter c _ h

theorem cacheInv_cache_data (now : Int) (year : Nat) (data : List Row)
    (c : Cache) (h : CacheInv c) (hd : data ≠ []) :
    CacheInv (cache_data now year data c) := by
  intro e he
  rcases List.mem_cons.mp he with rfl | he2
  · exact hd
  · exact cacheInv_filter c _ h e he2

theorem cacheInv_fetch (f : Nat → PageResult) (now : Int) (year : Nat)
    (c : Cache) (h : CacheInv c) :
    CacheInv (fetch_nhtsa_data f now year c).2 := by
  have hg := cacheInv_get now year c h
  unfold fetch_nhtsa_data
  rcases hgc : get_cached_data now year c with ⟨o, c1⟩
  rw [hgc] at hg
  cases o with
  | some cached => exact hg
  | none =>
    dsimp only
    by_cases he : (fetch_loop f).1.isEmpty = true
    · rw [if_pos he]; exact hg
    · rw [if_neg he]
      exact cacheInv_cache_data now year _ c1 hg
        (by simpa [List.isEmpty_iff] using he)

/-- C10: the cache never holds an empty table: the invariant is preserved by
`get_cached_data` and by `fetch_nhtsa_data` (the only writers), and a year
whose fetch yields no rows is not stored, so a later request for it misses
the cache again. -/
theorem cache_nonempty_invariant (f : Nat → PageResult) (now : Int)
    (year : Nat) (c : Cache) (h : CacheInv c) :
    CacheInv (get_cached_data now year c).2 ∧
    CacheInv (fetch_nhtsa_data f now year c).2 ∧
    (c.lookup year = none → (fetch_loop f).1 = [] →
      (fetch_nhtsa_data f now year c).2.lookup year = none) := by
  refine ⟨cacheInv_get now year c h, cacheInv_fetch f now year c h, ?_⟩
  intro hl hempty
  have hg : get_cached_data now year c = (none, c) := by
    simp [get_cached_data, hl]
  simp only [fetch_nhtsa_data, hg]
  rw [if_pos (by simp [hempty])]
  exact hl

/-- Witness for C10 at the concrete cache `cache0` and upstream `f0`. -/
theorem cache_nonempty_invariant_holds :
    CacheInv (get_cached_data 10 2020 cache0).2 ∧
    CacheInv (fetch_nhtsa_data f0 10 2020 cache0).2 ∧
    (cache0.lookup 2020 = none → (fetch_loop f0).1 = [] →
      (fetch_nhtsa_data f0 10 2020 cache0).2.lookup 2020 = none) :=
  cache_nonempty_invariant f0 10 2020 cache0 (by decide)

/-! ### Filename cleaning (claim C3) -/

/-- C3 counterexample: `clean_filename` keeps the hyphen (the regex class is
`[^a-zA-Z0-9\s-]`), so the output of `"a-b"` contains a character that is
neither alphanumeric nor an underscore. -/
theorem clean_filename_keeps_hyphen :
    clean_filename "a-b" = "a-b" ∧
    ¬ (∀ c ∈ (clean_filename "a-b").toList,
        c.isAlphanum = true ∨ c = '_') := by
  constructor
  · rfl
  · decide

/-- C3 amended: every character of `clean_filename`'s output is
alphanumeric, an underscore, a hyphen, or a non-space whitespace character
(tab, newline, carriage return, vertical tab, form feed); spaces themselves
are converted to underscores. -/
theorem clean_filename_char_classes (s : String) (c : Char)
    (h : c ∈ (clean_filename s).toList) :
    c.isAlphanum = true ∨ c = '_' ∨ c = '-' ∨
      c = '\t' ∨ c = '\n' ∨ c = '\r' ∨ c = '\x0b' ∨ c = '\x0c' := by
  have hrw : (clean_filename s).toList =
      (s.toList.filter keep_char).map (fun c => if c == ' ' then '_' else c) :=
    rfl
  rw [hrw, List.mem_map] at h
  obtain ⟨a, ha, rfl⟩ := h
  rw [List.mem_filter] at ha
  obtain ⟨-, hk⟩ := ha
  by_cases hsp : a = ' '
  · subst hsp
    simp
  · rw [if_neg (by simpa using hsp)]
    simp only [keep_char, Bool.or_eq_true, beq_iff_eq] at hk
    rcases hk with ((((((hk | hk) | hk) | hk) | hk) | hk) | hk) | hk <;>
      simp [hk] at hsp ⊢

/-- Witness for C3 amended, at `s = "a b"`, `c = '_'`. -/
theorem clean_filename_char_classes_holds :
    '_'.isAlphanum = true ∨ '_' = '_' ∨ '_' = '-' ∨
      '_' = '\t' ∨ '_' = '\n' ∨ '_' = '\r' ∨ '_' = '\x0b' ∨ '_' = '\x0c' :=
  clean_filename_char_classes "a b" '_' (by decide)

/-! ### Python string primitives

Python compares strings lexicographically by code point, `str.strip()`
removes leading/trailing whitespace and `str.lower()` lower-cases; these are
embedded structurally over the character list of the string. -/

/-- Python `<` on strings: lexicographic by code point. -/
def strLt : List Char → List Char → Bool
  | [], [] => false
  | [], _ :: _ => true
  | _ :: _, [] => false
  | a :: as, b :: bs =>
    if a < b then true
    else if b < a then false
    else strLt as bs

/-- Python `a < b` on strings. -/
abbrev py_lt (a b : String) : Prop := strLt a.toList b.toList = true

/-- Python `a <= b` on strings (the total order used by `sorted`). -/
abbrev py_le (a b : String) : Prop := strLt b.toList a.toList = false

instance : DecidableRel py_lt := fun a b =>
  inferInstanceAs (Decidable (strLt a.toList b.toList = true))

instance : DecidableRel py_le := fun a b =>
  inferInstanceAs (Decidable (strLt b.toList a.toList = false))

/-- The whitespace class of Python `str.strip()` (ASCII fragment). -/
def py_space (c : Char) : Bool :=
  c == ' ' || c == '\t' || c == '\n' || c == '\r' || c == '\x0b' || c == '\x0c'

/-- Python `str.strip()`. -/
def py_strip (s : String) : String :=
  String.mk (((s.toList.dropWhile py_space).reverse.dropWhile py_space).reverse)

/-- Python `str.lower()` (ASCII fragment). -/
def py_lower (s : String) : String :=
  String.mk (s.toList.map Char.toLower)

theorem strLt_irrefl : ∀ l : List Char, strLt l l = false := by
  intro l
  induction l with
  | nil => rfl
  | cons a as ih => simp [strLt, ih]

theorem strLt_trans : ∀ l1 l2 l3 : List Char,
    strLt l1 l2 = true → strLt l2 l3 = true → strLt l1 l3 = true := by
  intro l1
  induction l1 with
  | nil =>
    intro l2 l3 h12 h23
    cases l2 with
    | nil => simp [strLt] at h12
    | cons b bs =>
      cases l3 with
      | nil => simp [strLt] at h23
      | cons c cs => rfl
  | cons a as ih =>
    intro l2 l3 h12 h23
    cases l2 with
    | nil => simp [strLt] at h12
    | cons b bs =>
      cases l3 with
      | nil => simp [strLt] at h23
      | cons c cs =>
        simp only [strLt] at h12 h23 ⊢
        by_cases hab : a < b
        · rw [if_pos hab] at h12
          by_cases hbc : b < c
          · rw [if_pos (lt_trans hab hbc)]
          · rw [if_neg hbc] at h23
            by_cases hcb : c < b
            · rw [if_pos hcb] at h23
              exact absurd h23 (by simp)
            · have hbceq : b = c := le_antisymm (not_lt.mp hcb) (not_lt.mp hbc)
              rw [if_pos (hbceq ▸ hab)]
        · rw [if_neg hab] at h12
          by_cases hba : b < a
          · rw [if_pos hba] at h12
            exact absurd h12 (by simp)
          · have haeq : a = b := le_antisymm (not_lt.mp hba) (not_lt.mp hab)
            rw [if_neg hba] at h12
            subst haeq
            by_cases hac : a < c
            · rw [if_pos hac]
            · rw [if_neg hac] at h23 ⊢
              by_cases hca : c < a
              · rw [if_pos hca] at h23
                exact absurd h23 (by simp)
              · rw [if_neg hca] at h23 ⊢
                exact ih bs cs h12 h23

theorem strLt_total : ∀ l1 l2 : List Char,
    strLt l1 l2 = true ∨ strLt l2 l1 = true ∨ l1 = l2 := by
  intro l1
  induction l1 with
  | nil =>
    intro l2
    cases l2 with
    | nil => right; right; rfl
    | cons b bs => left; rfl
  | cons a as ih =>
    intro l2
    cases l2 with
    | nil => right; left; rfl
    | cons b bs =>
      rcases lt_trichotomy a b with h | h | h
      · left; simp [strLt, h]
      · subst h
        rcases ih bs with h2 | h2 | h2
        · left; simp [strLt, lt_irrefl, h2]
        · right; left; simp [strLt, lt_irrefl, h2]
        · right; right; rw [h2]
      · right; left; simp [strLt, h]

theorem strLt_asymm {l1 l2 : List Char} (h : strLt l1 l2 = true) :
    strLt l2 l1 = false := by
  by_contra hc
  have h2 : strLt l2 l1 = true := by
    cases hx : strLt l2 l1
    · exact absurd hx hc
    · rfl
  exact absurd (strLt_trans l1 l2 l1 h h2) (by simp [strLt_irrefl])

instance : IsTotal String py_le := by
  refine ⟨fun a b => ?_⟩
  rcases strLt_total b.toList a.toList with h | h | h
  · right; exact strLt_asymm h
  · left; exact strLt_asymm h
  · left
    show strLt b.toList a.toList = false
    rw [h]
    exact strLt_irrefl _

instance : IsTrans String py_le := by
  refine ⟨fun a b c hab hbc => ?_⟩
  by_contra hc
  have hca : strLt c.toList a.toList = true := by
    cases hx : strLt c.toList a.toList
    · exact absurd hx hc
    · rfl
  rcases strLt_total a.toList b.toList with h | h | h
  · have h2 := strLt_trans _ _ _ hca h
    rw [hbc] at h2
    exact Bool.noConfusion h2
  · rw [hab] at h
    exact Bool.noConfusion h
  · rw [h] at hca
    rw [hbc] at hca
    exact Bool.noConfusion hca

/-! ### DataFrame and endpoint layer -/

/-- The fetched table: the pandas column index plus the rows.  Accessing a
column absent from `cols` raises `KeyError` in the Python code. -/
structure DF where
  cols : List String
  rows : List Row

/-- JSON payloads produced by the three endpoints. -/
inductive Payload where
  | empty : Payload
  | manuName (names : List String) : Payload
  | manuDate (entries : List (String × Option Nat)) : Payload
  | versions (entries : List (String × String × String)) : Payload
deriving DecidableEq

/-- A Flask response: `jsonify(...)` (status, optional `error` field,
payload) or `send_file(...)` (status, download name, attachment flag).
Both carry HTTP status 200 in the code; the status is kept explicit so that
this is a provable property rather than a convention. -/
inductive Response where
  | json (status : Nat) (error : Option String) (payload : Payload) : Response
  | file (status : Nat) (filename : String) (attachment : Bool) : Response
deriving DecidableEq

/-- HTTP status of a response. -/
def Response.status : Response → Nat
  | .json s _ _ => s
  | .file s _ _ => s

/-- Worker for `drop_duplicates` / `unique`: keep the first element for each key. -/
def uniqueByAux {α β : Type} [DecidableEq β] (k : α → β) :
    List α → List β → List α
  | [], _ => []
  | x :: xs, seen =>
    if k x ∈ seen then uniqueByAux k xs seen
    else x :: uniqueByAux k xs (k x :: seen)

/-- First-occurrence deduplication by key, as pandas `unique()` and
`drop_duplicates(subset=..., keep='first')` do. -/
def uniqueBy {α β : Type} [DecidableEq β] (k : α → β) (l : List α) : List α :=
  uniqueByAux k l []

/-- Python `max` over a list of strings (lexicographic by code point), as
`groupby(...)['letterdate'].max()` computes on an object column. -/
def strMax (l : List String) : String :=
  l.foldl (fun a b => if strLt a.toList b.toList then b else a) ""

/-- Sort key encoding for `sort_values(..., ascending=False,
na_position='last')` over a parsed-date column: parsed dates descend
(`-d`), NaT (`none`) sorts after every date. -/
def dateEnc : Option Nat → Int
  | some d => -(d : Int)
  | none => 1

/-- Single-key comparison used by `get_manufacturers` (date mode). -/
def mdle (a b : String × Option Nat) : Prop := dateEnc a.2 ≤ dateEnc b.2

instance : DecidableRel mdle := fun a b =>
  inferInstanceAs (Decidable (dateEnc a.2 ≤ dateEnc b.2))

/-- The comparison `sort_values(['letterdate_dt', 'manufacturername',
'name'], ascending=[False, True, True], na_position='last')` sorts by:
parsed date descending with NaT last, then manufacturer and document name
ascending. -/
def vle (parse : String → Option Nat) (a b : Row) : Prop :=
  dateEnc (parse a.letterdate) < dateEnc (parse b.letterdate) ∨
    (dateEnc (parse a.letterdate) = dateEnc (parse b.letterdate) ∧
      (py_lt a.manufacturername b.manufacturername ∨
        (a.manufacturername = b.manufacturername ∧ py_le a.name b.name)))

instance (parse : String → Option Nat) : DecidableRel (vle parse) :=
  fun a b => by unfold vle; infer_instance

instance (parse : String → Option Nat) : IsTotal Row (vle parse) := by
  refine ⟨fun a b => ?_⟩
  rcases lt_trichotomy (dateEnc (parse a.letterdate))
      (dateEnc (parse b.letterdate)) with h | h | h
  · exact Or.inl (Or.inl h)
  · rcases strLt_total a.manufacturername.toList b.manufacturername.toList
        with h2 | h2 | h2
    · exact Or.inl (Or.inr ⟨h, Or.inl h2⟩)
    · exact Or.inr (Or.inr ⟨h.symm, Or.inl h2⟩)
    · have hm : a.manufacturername = b.manufacturername :=
        String.toList_inj.mp h2
      rcases total_of py_le a.name b.name with h3 | h3
      · exact Or.inl (Or.inr ⟨h, Or.inr ⟨hm, h3⟩⟩)
      · exact Or.inr (Or.inr ⟨h.symm, Or.inr ⟨hm.symm, h3⟩⟩)
  · exact Or.inr (Or.inl h)

instance (parse : String → Option Nat) : IsTrans Row (vle parse) := by
  refine ⟨fun a b c hab hbc => ?_⟩
  rcases hab with hab | ⟨hd1, ht1⟩
  · rcases hbc with hbc | ⟨hd2, ht2⟩
    · exact Or.inl (lt_trans hab hbc)
    · exact Or.inl (hd2 ▸ hab)
  · rcases hbc with hbc | ⟨hd2, ht2⟩
    · exact Or.inl (hd1 ▸ hbc)
    · refine Or.inr ⟨hd1.trans hd2, ?_⟩
      rcases ht1 with ht1 | ⟨hm1, hn1⟩
      · rcases ht2 with ht2 | ⟨hm2, hn2⟩
        · exact Or.inl (strLt_trans _ _ _ ht1 ht2)
        · exact Or.inl (hm2 ▸ ht1)
      · rcases ht2 with ht2 | ⟨hm2, hn2⟩
        · exact Or.inl (hm1 ▸ ht2)
        · exact Or.inr ⟨hm1.trans hm2, trans_of py_le hn1 hn2⟩

/-- The raw `letterdate` strings of manufacturer `m`'s group. -/
def letterdates_of (df : DF) (m : String) : List String :=
  (df.rows.filter (fun r => r.manufacturername == m)).map (·.letterdate)

/-- Endpoint `get_manufacturers(year)` (lines 96-136).  `parse` stands for
`pd.to_datetime(_, errors='coerce')`.  In date mode the code first takes the
`max()` of each group's raw `letterdate` strings and only then parses the
chosen string (line 118 then 119). -/
def get_manufacturers (year : Nat) (sort_by : String) (df : DF)
    (parse : String → Option Nat) : Except String Response :=
  if df.rows.isEmpty then
    .ok (.json 200 (some ("No data found for year " ++ toString year))
      (.manuName []))
  else if "manufacturername" ∉ df.cols then
    .ok (.json 200 (some "Invalid data format received from API")
      (.manuName []))
  else if sort_by = "date" ∧ "letterdate" ∈ df.cols then
    let manufacturer_dates :=
      (List.insertionSort py_le
          (uniqueBy id (df.rows.map (·.manufacturername)))).map
        (fun m => (m, parse (strMax (letterdates_of df m))))
    .ok (.json 200 none
      (.manuDate (List.insertionSort mdle manufacturer_dates)))
  else
    .ok (.json 200 none (.manuName (List.insertionSort py_le
      ((uniqueBy id (df.rows.map (·.manufacturername))).filter
        (fun m => !(m == "") && !(py_strip m == ""))))))

/-- Endpoint `get_versions(year)` (lines 138-180).  An `Except.error` is an uncaught
Python exception (the pandas `KeyError` on a missing column). -/
def get_versions (year : Nat) (manufacturers : List String) (df : DF)
    (parse : String → Option Nat) : Except String Response :=
  if manufacturers.isEmpty then
    .ok (.json 200 (some "No manufacturers selected") .empty)
  else if df.rows.isEmpty then
    .ok (.json 200 (some ("No data available for year " ++ toString year))
      .empty)
  else if "manufacturername" ∉ df.cols then
    .error "KeyError: manufacturername"
  else
    let filtered_data :=
      df.rows.filter (fun r => manufacturers.contains r.manufacturername)
    if filtered_data.isEmpty then
      .ok (.json 200 (some "No versions found for selected manufacturers")
        .empty)
    else if "name" ∉ df.cols then .error "KeyError: name"
    else if "letterdate" ∉ df.cols then .error "KeyError: letterdate"
    else
      let versions :=
        uniqueBy (fun r => (r.manufacturername, r.name)) filtered_data
      .ok (.json 200 none (.versions
        ((List.insertionSort (vle parse) versions).map
          (fun r => (r.manufacturername, r.name, r.letterdate)))))

/-- Outcome of the `requests.get(pdf_url)` call inside `get_pdf`. -/
inductive PdfResult where
  | exn (msg : String) : PdfResult
  | resp (status : Nat) : PdfResult

/-- Lines 202-216 of `get_pdf`: exact `(manufacturername, name)` match
first; only when it is empty, the case-insensitive match. -/
def version_lookup (rows : List Row) (manufacturer version : String) :
    List Row :=
  let version_data := rows.filter
    (fun r => r.manufacturername == manufacturer && r.name == version)
  if version_data.isEmpty then
    rows.filter (fun r =>
      py_lower r.manufacturername == py_lower manufacturer &&
        py_lower r.name == py_lower version)
  else version_data

/-- Endpoint `get_pdf(year)` (lines 182-259).  `isGet` distinguishes GET (inline
view) from POST (attachment download); `pdf_fetch` stands for
`requests.get(pdf_url, timeout=30)`. -/
def get_pdf (year : Nat) (manufacturer version : Option String)
    (isGet : Bool) (df : DF) (pdf_fetch : String → PdfResult) :
    Except String Response :=
  if manufacturer.getD "" == "" || version.getD "" == "" then
    .ok (.json 200 (some "Missing manufacturer or version") .empty)
  else
    let m := manufacturer.getD ""
    let v := version.getD ""
    if df.rows.isEmpty then
      .ok (.json 200 (some ("No data available for year " ++ toString year))
        .empty)
    else if "manufacturername" ∉ df.cols then
      .error "KeyError: manufacturername"
    else if "name" ∉ df.cols then
      .error "KeyError: name"
    else
      let version_data := version_lookup df.rows m v
      if version_data.isEmpty then
        .ok (.json 200 (some ("Version \"" ++ v ++
          "\" not found for manufacturer \"" ++ m ++ "\"")) .empty)
      else if "url" ∉ df.cols then
        .ok (.json 200 (some "PDF URL not available in data") .empty)
      else
        match version_data with
        | [] => .error "IndexError"
        | r :: _ =>
          match pdf_fetch r.url with
          | .resp status =>
            if status == 200 then
              .ok (.file 200 (toString year ++ "_" ++ clean_filename m ++
                "_" ++ clean_filename v ++ ".pdf") (!isGet))
            else
              .ok (.json 200 (some ("Could not fetch PDF. Status code: " ++
                toString status)) .empty)
          | .exn ex =>
            .ok (.json 200 (some ("Error accessing PDF: " ++ ex)) .empty)

/-- Digit-string to number, as `int()` does on a decimal literal. -/
def digitsToNat (l : List Char) : Option Nat :=
  if l.isEmpty then none
  else
    l.foldl
      (fun acc c =>
        match acc with
        | none => none
        | some n => if c.isDigit then some (n * 10 + (c.toNat - 48)) else none)
      (some 0)

/-- Split a character list at `'/'` separators. -/
def splitOnSlash : List Char → List (List Char)
  | [] => [[]]
  | c :: rest =>
    let r := splitOnSlash rest
    if c == '/' then [] :: r
    else
      match r with
      | [] => [[c]]
      | h :: t => (c :: h) :: t

/-- Modelled from the library: `pd.to_datetime(_, errors='coerce')`
restricted to `M/D/YYYY` date strings (the NHTSA `letterdate` format),
returning the order-preserving key `y * 10000 + m * 100 + d`; anything else
coerces to NaT (`none`). -/
def parseUS (s : String) : Option Nat :=
  match splitOnSlash s.toList with
  | [m, d, y] =>
    match digitsToNat m, digitsToNat d, digitsToNat y with
    | some mv, some dv, some yv =>
      if 1 ≤ mv ∧ mv ≤ 12 ∧ 1 ≤ dv ∧ dv ≤ 31 then
        some (yv * 10000 + mv * 100 + dv)
      else none
    | _, _, _ => none
  | _ => none

/-! ### Deduplication lemmas -/

theorem uniqueByAux_keys {α β : Type} [DecidableEq β] (k : α → β) :
    ∀ (l : List α) (seen : List β),
      ((uniqueByAux k l seen).map k).Nodup ∧
        ∀ y ∈ uniqueByAux k l seen, k y ∉ seen := by
  intro l
  induction l with
  | nil => intro seen; simp [uniqueByAux]
  | cons x xs ih =>
    intro seen
    by_cases hx : k x ∈ seen
    · simpa [uniqueByAux, hx] using ih seen
    · simp only [uniqueByAux, if_neg hx]
      obtain ⟨h1, h2⟩ := ih (k x :: seen)
      refine ⟨?_, ?_⟩
      · simp only [List.map_cons, List.nodup_cons]
        refine ⟨fun hmem => ?_, h1⟩
        obtain ⟨y, hy, hky⟩ := List.mem_map.mp hmem
        exact (h2 y hy) (by rw [hky]; exact List.mem_cons_self _ _)
      · intro y hy
        rcases List.mem_cons.mp hy with rfl | hy2
        · exact hx
        · exact fun hcon => (h2 y hy2) (List.mem_cons_of_mem _ hcon)

theorem uniqueBy_keys_nodup {α β : Type} [DecidableEq β] (k : α → β)
    (l : List α) : ((uniqueBy k l).map k).Nodup :=
  (uniqueByAux_keys k l []).1

theorem mem_uniqueByAux_id {α : Type} [DecidableEq α] :
    ∀ (l : List α) (seen : List α) (y : α),
      y ∈ uniqueByAux id l seen ↔ y ∈ l ∧ y ∉ seen := by
  intro l
  induction l with
  | nil => intro seen y; simp [uniqueByAux]
  | cons x xs ih =>
    intro seen y
    by_cases hx : id x ∈ seen
    · rw [uniqueByAux, if_pos hx, ih]
      simp only [id_eq] at hx
      constructor
      · rintro ⟨h1, h2⟩; exact ⟨List.mem_cons_of_mem _ h1, h2⟩
      · rintro ⟨h1, h2⟩
        rcases List.mem_cons.mp h1 with rfl | h1
        · exact absurd hx h2
        · exact ⟨h1, h2⟩
    · rw [uniqueByAux, if_neg hx]
      simp only [id_eq] at hx
      constructor
      · intro hy
        rcases List.mem_cons.mp hy with rfl | hy2
        · exact ⟨List.mem_cons_self _ _, hx⟩
        · obtain ⟨h1, h2⟩ := (ih _ y).mp hy2
          exact ⟨List.mem_cons_of_mem _ h1,
            fun hcon => h2 (List.mem_cons_of_mem _ hcon)⟩
      · rintro ⟨h1, h2⟩
        rcases List.mem_cons.mp h1 with rfl | h1
        · exact List.mem_cons_self _ _
        · by_cases hyx : y = x
          · subst hyx; exact List.mem_cons_self _ _
          · refine List.mem_cons_of_mem _ ((ih _ y).mpr ⟨h1, ?_⟩)
            intro hcon
            rcases List.mem_cons.mp hcon with h | h
            · exact hyx (by simpa using h)
            · exact h2 h

theorem mem_uniqueBy_id {α : Type} [DecidableEq α] (l : List α) (y : α) :
    y ∈ uniqueBy id l ↔ y ∈ l := by
  rw [uniqueBy, mem_uniqueByAux_id]
  simp

theorem uniqueBy_id_nodup {α : Type} [DecidableEq α] (l : List α) :
    (uniqueBy id l).Nodup := by
  have h := uniqueBy_keys_nodup id l
  simpa using h

/-! ### Manufacturer listing (claims C5, C8) -/

/-- Table exhibiting the blank-name filter of the name-sorted branch. -/
def df1 : DF :=
  ⟨["manufacturername", "name", "letterdate", "url"],
    [⟨"", "d1", "1/1/2021", "u"⟩, ⟨"B", "d2", "1/1/2021", "u"⟩]⟩

/-- C8 counterexample: `""` is a distinct value of the `manufacturername`
column of `df1`, but the name-sorted manufacturer list omits it (the code
filters with `if m and str(m).strip()`), so the endpoint does not return
all the distinct manufacturer names. -/
theorem manufacturers_name_blank_dropped :
    get_manufacturers 2021 "name" df1 parseUS =
      .ok (.json 200 none (.manuName ["B"])) ∧
    "" ∈ df1.rows.map (·.manufacturername) ∧
    "" ∉ (["B"] : List String) := by
  refine ⟨by rfl, by decide, by decide⟩

/-- C8 amended: with `sort=name` the endpoint returns the distinct
non-blank manufacturer names (those whose `strip()` is non-empty), sorted
ascending in the default case-sensitive (code-point) string order, without
duplicates. -/
theorem manufacturers_name_sorted (year : Nat) (sort_by : String) (df : DF)
    (parse : String → Option Nat) (names : List String)
    (h : get_manufacturers year sort_by df parse =
      .ok (.json 200 none (.manuName names))) :
    names.Sorted py_le ∧ names.Nodup ∧
      ∀ m, m ∈ names ↔ m ∈ df.rows.map (·.manufacturername) ∧
        ¬ py_strip m = "" := by
  unfold get_manufacturers at h
  split_ifs at h with h1 h2 h3
  all_goals simp at h
  subst h
  refine ⟨List.sorted_insertionSort _ _, ?_, ?_⟩
  · refine ((List.perm_insertionSort _ _).nodup_iff).mpr ?_
    exact (uniqueBy_id_nodup _).filter _
  · intro m
    rw [(List.perm_insertionSort _ _).mem_iff, List.mem_filter,
      mem_uniqueBy_id]
    constructor
    · rintro ⟨hmem, hp⟩
      simp only [Bool.and_eq_true, Bool.not_eq_eq_eq_not, Bool.not_true,
        beq_eq_false_iff_ne, ne_eq] at hp
      exact ⟨hmem, hp.2⟩
    · rintro ⟨hmem, hstrip⟩
      refine ⟨hmem, ?_⟩
      have hne : ¬ m = "" := by
        intro hcon
        subst hcon
        exact hstrip rfl
      simp [hne, hstrip]

/-- Witness for C8 amended, at the concrete table `df1`. -/
theorem manufacturers_name_sorted_holds :
    (["B"] : List String).Sorted py_le ∧ (["B"] : List String).Nodup ∧
      ∀ m, m ∈ (["B"] : List String) ↔
        m ∈ df1.rows.map (·.manufacturername) ∧ ¬ py_strip m = "" :=
  manufacturers_name_sorted 2021 "name" df1 parseUS ["B"] (by rfl)

/-- Table exhibiting the date-sort slip: manufacturer `M` submitted on
`2/1/2021` (its most recent) and on `9/1/2020`; `N` on `1/1/2021`. -/
def df2 : DF :=
  ⟨["manufacturername", "name", "letterdate", "url"],
    [⟨"M", "doc", "2/1/2021", "u"⟩, ⟨"N", "doc", "1/1/2021", "u"⟩,
      ⟨"M", "doc2", "9/1/2020", "u"⟩]⟩

/-- C5 (code bug): `get_manufacturers` takes `max()` over the raw
`letterdate` strings of a group (line 118) before parsing them (line 119),
so `M`'s group is represented by the lexicographically largest string
`"9/1/2020"` rather than by its most recent date `2/1/2021`; the output
orders `N` (latest parsed date 2021-01-01) before `M` even though `M`'s
most recent submission, 2021-02-01, is strictly later — contradicting the
documented (and commented, line 117: `# Sort by most recent date`)
most-recent-date-descending order. -/
theorem manufacturers_date_sort_bug :
    get_manufacturers 2021 "date" df2 parseUS =
      .ok (.json 200 none
        (.manuDate [("N", some 20210101), ("M", some 20200901)])) ∧
    "2/1/2021" ∈ letterdates_of df2 "M" ∧
    parseUS "2/1/2021" = some 20210201 ∧
    letterdates_of df2 "N" = ["1/1/2021"] ∧
    parseUS "1/1/2021" = some 20210101 ∧ 20210101 < 20210201 := by
  refine ⟨by rfl, by decide, by decide, by decide, by decide, by decide⟩

/-! ### Version listing (claim C6) -/

theorem sorted_uniqueBy_keys_nodup {α β : Type} [DecidableEq β] (k : α → β)
    (r : α → α → Prop) [DecidableRel r] (l : List α) :
    ((List.insertionSort r (uniqueBy k l)).map k).Nodup :=
  ((List.perm_insertionSort r (uniqueBy k l)).map k).nodup_iff.mpr
    (uniqueBy_keys_nodup k l)

/-- The ordering claimed for the version list: parsed date descending,
ties by manufacturer then document name ascending, unparseable dates after
every parseable one. -/
def claim_vorder (parse : String → Option Nat)
    (a b : String × String × String) : Prop :=
  match parse a.2.2, parse b.2.2 with
  | some x, some y =>
    y < x ∨ (x = y ∧ (py_lt a.1 b.1 ∨ (a.1 = b.1 ∧ py_le a.2.1 b.2.1)))
  | some _, none => True
  | none, some _ => False
  | none, none => True

/-- C6: whenever `get_versions` answers with a version list, the list has
at most one entry per `(manufacturer, document name)` pair and is ordered
by parsed submission date descending, then manufacturer ascending, then
document name ascending, with unparseable dates placed last. -/
theorem versions_dedup_sorted (year : Nat) (manufacturers : List String)
    (df : DF) (parse : String → Option Nat)
    (es : List (String × String × String))
    (h : get_versions year manufacturers df parse =
      .ok (.json 200 none (.versions es))) :
    (es.map (fun e => (e.1, e.2.1))).Nodup ∧
      es.Pairwise (claim_vorder parse) := by
  unfold get_versions at h
  split_ifs at h with h1 h2 h3 h4 h5
  all_goals simp at h
  all_goals split at h <;> simp at h
  subst h
  constructor
  · rw [List.map_map]
    have hcomp : ((fun e : String × String × String => (e.1, e.2.1)) ∘
        (fun r : Row => (r.manufacturername, r.name, r.letterdate))) =
        fun r : Row => (r.manufacturername, r.name) := rfl
    rw [hcomp]
    exact sorted_uniqueBy_keys_nodup _ _ _
  · rw [List.pairwise_map]
    refine List.Pairwise.imp ?_ (List.sorted_insertionSort (vle parse) _)
    intro a b hab
    simp only [vle] at hab
    cases hpa : parse a.letterdate with
    | some x =>
      cases hpb : parse b.letterdate with
      | some y =>
        rw [hpa, hpb] at hab
        simp only [claim_vorder, hpa, hpb]
        simp only [dateEnc] at hab
        rcases hab with hlt | ⟨heq, htie⟩
        · left
          have : (y : Int) < (x : Int) := by omega
          exact_mod_cast this
        · right
          refine ⟨by omega, htie⟩
      | none =>
        simp only [claim_vorder, hpa, hpb]
    | none =>
      cases hpb : parse b.letterdate with
      | some y =>
        rw [hpa, hpb] at hab
        simp only [dateEnc] at hab
        exfalso
        rcases hab with hlt | ⟨heq, -⟩
        · omega
        · omega
      | none =>
        simp only [claim_vorder, hpa, hpb]

/-- A concrete table for the C6 witness. -/
def dfv : DF :=
  ⟨["manufacturername", "name", "letterdate", "url"],
    [⟨"A", "d1", "1/1/2021", "u"⟩, ⟨"A", "d2", "2/1/2021", "u"⟩,
      ⟨"B", "d3", "3/1/2021", "u"⟩]⟩

/-- The version list `get_versions` produces on `dfv` for `["A"]`. -/
def esv : List (String × String × String) :=
  [("A", "d2", "2/1/2021"), ("A", "d1", "1/1/2021")]

/-- Witness for C6 at the concrete table `dfv`. -/
theorem versions_dedup_sorted_holds :
    (esv.map (fun e => (e.1, e.2.1))).Nodup ∧
      esv.Pairwise (claim_vorder parseUS) :=
  versions_dedup_sorted 2021 ["A"] dfv parseUS esv (by rfl)

/-! ### PDF lookup (claims C4, C7) -/

/-- A PDF host that answers every request with HTTP 200. -/
def pf0 : String → PdfResult := fun _ => .resp 200

/-- C4: the lookup in `get_pdf` first selects rows matching the request
exactly; only when that selection is empty does it select rows matching
case-insensitively; and when both selections are empty `get_pdf` returns a
JSON error naming the requested version and manufacturer. -/
theorem pdf_lookup_fallback (df : DF) (m v : String) (year : Nat)
    (isGet : Bool) (pf : String → PdfResult)
    (hm : m ≠ "") (hv : v ≠ "") (hrows : df.rows ≠ [])
    (hc1 : "manufacturername" ∈ df.cols) (hc2 : "name" ∈ df.cols) :
    (df.rows.filter (fun r => r.manufacturername == m && r.name == v) ≠ [] →
      version_lookup df.rows m v =
        df.rows.filter (fun r => r.manufacturername == m && r.name == v)) ∧
    (df.rows.filter (fun r => r.manufacturername == m && r.name == v) = [] →
      version_lookup df.rows m v =
        df.rows.filter (fun r =>
          py_lower r.manufacturername == py_lower m &&
            py_lower r.name == py_lower v)) ∧
    (df.rows.filter (fun r =>
        py_lower r.manufacturername == py_lower m &&
          py_lower r.name == py_lower v) = [] →
      df.rows.filter (fun r => r.manufacturername == m && r.name == v)
          = [] ∧
      get_pdf year (some m) (some v) isGet df pf =
        .ok (.json 200 (some ("Version \"" ++ v ++
          "\" not found for manufacturer \"" ++ m ++ "\"")) .empty)) := by
  refine ⟨?_, ?_, ?_⟩
  · intro hne
    unfold version_lookup
    rw [if_neg (by simpa [List.isEmpty_iff] using hne)]
  · intro he
    unfold version_lookup
    rw [if_pos (by simpa [List.isEmpty_iff] using he)]
  · intro hci
    have hex : df.rows.filter
        (fun r => r.manufacturername == m && r.name == v) = [] := by
      rcases hfe : df.rows.filter
          (fun r => r.manufacturername == m && r.name == v) with - | ⟨r, rest⟩
      · exact hfe
      · exfalso
        have hrmem : r ∈ df.rows.filter
            (fun r => r.manufacturername == m && r.name == v) := by
          rw [hfe]; exact List.mem_cons_self _ _
        rw [List.mem_filter] at hrmem
        obtain ⟨hrr, hp⟩ := hrmem
        simp only [Bool.and_eq_true, beq_iff_eq] at hp
        have hci2 : r ∈ df.rows.filter (fun r =>
            py_lower r.manufacturername == py_lower m &&
              py_lower r.name == py_lower v) := by
          rw [List.mem_filter]
          exact ⟨hrr, by simp [hp.1, hp.2]⟩
        rw [hci] at hci2
        cases hci2
    refine ⟨hex, ?_⟩
    have hlk : version_lookup df.rows m v = [] := by
      unfold version_lookup
      rw [if_pos (by simp [hex])]
      exact hci
    unfold get_pdf
    rw [if_neg (by simp [hm, hv])]
    simp only [Option.getD_some]
    rw [if_neg (by simpa [List.isEmpty_iff] using hrows)]
    rw [if_neg (not_not_intro hc1), if_neg (not_not_intro hc2)]
    rw [hlk]
    rfl

/-- Witness for C4 at the table `df1` and an unmatched request. -/
theorem pdf_lookup_fallback_holds :
    (df1.rows.filter
        (fun r => r.manufacturername == "Z" && r.name == "y") ≠ [] →
      version_lookup df1.rows "Z" "y" =
        df1.rows.filter
          (fun r => r.manufacturername == "Z" && r.name == "y")) ∧
    (df1.rows.filter
        (fun r => r.manufacturername == "Z" && r.name == "y") = [] →
      version_lookup df1.rows "Z" "y" =
        df1.rows.filter (fun r =>
          py_lower r.manufacturername == py_lower "Z" &&
            py_lower r.name == py_lower "y")) ∧
    (df1.rows.filter (fun r =>
        py_lower r.manufacturername == py_lower "Z" &&
          py_lower r.name == py_lower "y") = [] →
      df1.rows.filter
          (fun r => r.manufacturername == "Z" && r.name == "y") = [] ∧
      get_pdf 2021 (some "Z") (some "y") true df1 pf0 =
        .ok (.json 200 (some ("Version \"" ++ "y" ++
          "\" not found for manufacturer \"" ++ "Z" ++ "\"")) .empty)) :=
  pdf_lookup_fallback df1 "Z" "y" 2021 true pf0 (by decide) (by decide)
    (by decide) (by decide) (by decide)

/-- A table whose columns do not include `manufacturername`. -/
def dfbad : DF := ⟨["foo"], [⟨"Mfr", "Doc", "1/1/2020", "u"⟩]⟩

/-- C7 counterexample: on a non-empty table lacking the `manufacturername`
column, `get_pdf` raises an uncaught pandas `KeyError` (line 203 is outside
any `try`), which Flask surfaces as an HTTP 500 — not as a JSON object with
an `error` field and status 200. -/
theorem get_pdf_missing_column_uncaught :
    get_pdf 2021 (some "A") (some "B") true dfbad pf0 =
      .error "KeyError: manufacturername" := by rfl

/-- C7 amended: every response the endpoints actually return carries HTTP
status 200 — no error class is distinguished by a non-200 status — and every
handled failure outcome (empty dataset, the column checks present in the
code, missing parameters, empty selection, no match, non-200 upstream PDF
status, caught exception) is returned as a JSON object whose `error` field
carries the corresponding message.  Unhandled failures (the missing lookup
column of the counterexample) escape as exceptions instead of being
returned. -/
theorem endpoints_error_json (year : Nat) (sort_by : String)
    (manufacturers : List String) (df : DF) (parse : String → Option Nat)
    (m v : Option String) (isGet : Bool) (pf : String → PdfResult) :
    (∀ r, get_manufacturers year sort_by df parse = .ok r →
      r.status = 200) ∧
    (∀ r, get_versions year manufacturers df parse = .ok r →
      r.status = 200) ∧
    (∀ r, get_pdf year m v isGet df pf = .ok r → r.status = 200) ∧
    (df.rows = [] →
      get_manufacturers year sort_by df parse =
        .ok (.json 200 (some ("No data found for year " ++ toString year))
          (.manuName []))) ∧
    (df.rows ≠ [] → "manufacturername" ∉ df.cols →
      get_manufacturers year sort_by df parse =
        .ok (.json 200 (some "Invalid data format received from API")
          (.manuName []))) ∧
    (manufacturers = [] →
      get_versions year manufacturers df parse =
        .ok (.json 200 (some "No manufacturers selected") .empty)) ∧
    (manufacturers ≠ [] → df.rows = [] →
      get_versions year manufacturers df parse =
        .ok (.json 200 (some ("No data available for year " ++
          toString year)) .empty)) ∧
    (manufacturers ≠ [] → df.rows ≠ [] → "manufacturername" ∈ df.cols →
      df.rows.filter (fun r => manufacturers.contains r.manufacturername)
          = [] →
      get_versions year manufacturers df parse =
        .ok (.json 200 (some "No versions found for selected manufacturers")
          .empty)) ∧
    (m.getD "" = "" ∨ v.getD "" = "" →
      get_pdf year m v isGet df pf =
        .ok (.json 200 (some "Missing manufacturer or version") .empty)) ∧
    (m.getD "" ≠ "" → v.getD "" ≠ "" → df.rows = [] →
      get_pdf year m v isGet df pf =
        .ok (.json 200 (some ("No data available for year " ++
          toString year)) .empty)) ∧
    (m.getD "" ≠ "" → v.getD "" ≠ "" → df.rows ≠ [] →
      "manufacturername" ∈ df.cols → "name" ∈ df.cols →
      version_lookup df.rows (m.getD "") (v.getD "") = [] →
      get_pdf year m v isGet df pf =
        .ok (.json 200 (some ("Version \"" ++ v.getD "" ++
          "\" not found for manufacturer \"" ++ m.getD "" ++ "\""))
          .empty)) ∧
    (m.getD "" ≠ "" → v.getD "" ≠ "" → df.rows ≠ [] →
      "manufacturername" ∈ df.cols → "name" ∈ df.cols →
      version_lookup df.rows (m.getD "") (v.getD "") ≠ [] →
      "url" ∉ df.cols →
      get_pdf year m v isGet df pf =
        .ok (.json 200 (some "PDF URL not available in data") .empty)) ∧
    (∀ r0 rest st, m.getD "" ≠ "" → v.getD "" ≠ "" → df.rows ≠ [] →
      "manufacturername" ∈ df.cols → "name" ∈ df.cols →
      version_lookup df.rows (m.getD "") (v.getD "") = r0 :: rest →
      "url" ∈ df.cols → pf r0.url = .resp st → st ≠ 200 →
      get_pdf year m v isGet df pf =
        .ok (.json 200 (some ("Could not fetch PDF. Status code: " ++
          toString st)) .empty)) ∧
    (∀ r0 rest ex, m.getD "" ≠ "" → v.getD "" ≠ "" → df.rows ≠ [] →
      "manufacturername" ∈ df.cols → "name" ∈ df.cols →
      version_lookup df.rows (m.getD "") (v.getD "") = r0 :: rest →
      "url" ∈ df.cols → pf r0.url = .exn ex →
      get_pdf year m v isGet df pf =
        .ok (.json 200 (some ("Error accessing PDF: " ++ ex)) .empty)) := by
  refine ⟨?_, ?_, ?_, ?_, ?_, ?_, ?_, ?_, ?_, ?_, ?_, ?_, ?_, ?_⟩
  · intro r h
    unfold get_manufacturers at h
    repeat' first
      | split at h
      | dsimp only at h
    all_goals first
      | exact Except.noConfusion h
      | (injection h with h2; subst h2; rfl)
  · intro r h
    unfold get_versions at h
    repeat' first
      | split at h
      | dsimp only at h
    all_goals first
      | exact Except.noConfusion h
      | (injection h with h2; subst h2; rfl)
  · intro r h
    unfold get_pdf at h
    repeat' first
      | split at h
      | dsimp only at h
    all_goals first
      | exact Except.noConfusion h
      | (injection h with h2; subst h2; rfl)
  · intro h1
    unfold get_manufacturers
    rw [if_pos (by simp [h1])]
  · intro h1 h2
    unfold get_manufacturers
    rw [if_neg (by simpa [List.isEmpty_iff] using h1), if_pos h2]
  · intro h1
    unfold get_versions
    rw [if_pos (by simp [h1])]
  · intro h1 h2
    unfold get_versions
    rw [if_neg (by simpa [List.isEmpty_iff] using h1), if_pos (by simp [h2])]
  · intro h1 h2 h3 h4
    unfold get_versions
    rw [if_neg (by simpa [List.isEmpty_iff] using h1),
      if_neg (by simpa [List.isEmpty_iff] using h2),
      if_neg (not_not_intro h3)]
    dsimp only
    rw [h4]
    rfl
  · intro h1
    unfold get_pdf
    rw [if_pos (by rcases h1 with h | h <;> simp [h])]
  · intro hm hv h2
    unfold get_pdf
    rw [if_neg (by simp [hm, hv])]
    dsimp only
    rw [if_pos (by simp [h2])]
  · intro hm hv hrows hc1 hc2 hlk
    unfold get_pdf
    rw [if_neg (by simp [hm, hv])]
    dsimp only
    rw [if_neg (by simpa [List.isEmpty_iff] using hrows),
      if_neg (not_not_intro hc1), if_neg (not_not_intro hc2), hlk]
    rfl
  · intro hm hv hrows hc1 hc2 hne hurl
    unfold get_pdf
    rw [if_neg (by simp [hm, hv])]
    dsimp only
    rw [if_neg (by simpa [List.isEmpty_iff] using hrows),
      if_neg (not_not_intro hc1), if_neg (not_not_intro hc2),
      if_neg (by simpa [List.isEmpty_iff] using hne),
      if_pos hurl]
  · intro r0 rest st hm hv hrows hc1 hc2 hvd hurl hpf hst
    unfold get_pdf
    rw [if_neg (by simp [hm, hv])]
    dsimp only
    rw [if_neg (by simpa [List.isEmpty_iff] using hrows),
      if_neg (not_not_intro hc1), if_neg (not_not_intro hc2), hvd]
    rw [if_neg (by simp), if_neg (not_not_intro hurl)]
    dsimp only
    rw [hpf]
    dsimp only
    rw [if_neg (by simp [hst])]
  · intro r0 rest ex hm hv hrows hc1 hc2 hvd hurl hpf
    unfold get_pdf
    rw [if_neg (by simp [hm, hv])]
    dsimp only
    rw [if_neg (by simpa [List.isEmpty_iff] using hrows),
      if_neg (not_not_intro hc1), if_neg (not_not_intro hc2), hvd]
    rw [if_neg (by simp), if_neg (not_not_intro hurl)]
    dsimp only
    rw [hpf]

/-- A table with the full column index and no rows. -/
def df0 : DF := ⟨["manufacturername", "name", "letterdate", "url"], []⟩

/-- Witness for C7 amended: four concrete handled failure outcomes — empty
dataset, empty selection, missing parameter, and no match — each returned
as a status-200 JSON object with the corresponding `error` message. -/
theorem endpoints_error_json_holds :
    get_manufacturers 2021 "name" df0 parseUS =
      .ok (.json 200 (some ("No data found for year " ++ toString 2021))
        (.manuName [])) ∧
    get_versions 2021 [] df1 parseUS =
      .ok (.json 200 (some "No manufacturers selected") .empty) ∧
    get_pdf 2021 none (some "y") true df1 pf0 =
      .ok (.json 200 (some "Missing manufacturer or version") .empty) ∧
    get_pdf 2021 (some "Z") (some "y") true df1 pf0 =
      .ok (.json 200 (some ("Version \"" ++ "y" ++
        "\" not found for manufacturer \"" ++ "Z" ++ "\"")) .empty) := by
  refine ⟨?_, ?_, ?_, ?_⟩
  · exact (endpoints_error_json 2021 "name" ["A"] df0 parseUS (some "Z")
      (some "y") true pf0).2.2.2.1 rfl
  · exact (endpoints_error_json 2021 "name" [] df1 parseUS (some "Z")
      (some "y") true pf0).2.2.2.2.2.1 rfl
  · exact (endpoints_error_json 2021 "name" ["A"] df1 parseUS none
      (some "y") true pf0).2.2.2.2.2.2.2.2.1 (Or.inl rfl)
  · exact (endpoints_error_json 2021 "name" ["A"] df1 parseUS (some "Z")
      (some "y") true pf0).2.2.2.2.2.2.2.2.2.2.1 (by decide) (by decide)
      (by decide) (by decide) (by decide) (by decide)
